import Mathlib

/-!
Shallow embedding of the packet I/O channel of `s2n-quic-platform`
(`src/io/channel.rs`) and of its socket driver (`src/socket/msg.rs`).

Conventions of the embedding:
* machine integers (`u16`, `usize`) become `Nat`; every quantity handled by
  the code is bounded by the `u16` buffer capacity under the writer contract
  (`write_payload` never claims more bytes than the offered region), so the
  arithmetic in the code cannot overflow and no modular reduction is needed;
* byte buffers become `List Nat`;
* the SPSC queues (`s2n_quic_core::sync::spsc`, whose sources are not part of
  this tree) are spec-modelled as bounded FIFO lists, see `spscPushDrop`;
* fallible operations return explicit result inductives.
-/

set_option maxRecDepth 8192

/-- Explicit congestion notification marking
(`s2n_quic_core::inet::ExplicitCongestionNotification`).
`Default::default()` is `NotEct`. -/
inductive ECN where
  | notEct
  | ect0
  | ect1
  | ce
deriving DecidableEq, Repr

/-- Path handle (`s2n_quic_core::path::Handle`): the pair of remote and local
socket addresses, each modelled as a numeric code.  `strict_eq` on such a
handle is equality of both components, which is definitional equality here. -/
structure Handle where
  remote_address : Nat
  local_address : Nat
deriving DecidableEq, Repr

/-- `Default::default()` for a handle: both addresses zero. -/
def Handle.default : Handle := ⟨0, 0⟩

/-- The segment buffer `Buffer` of `channel.rs`: a fixed byte array plus the
four segment cursors. -/
structure Buffer where
  data : List Nat
  segment_size : Nat
  segment_count : Nat
  segment_write_cursor : Nat
  segment_read_cursor : Nat
deriving DecidableEq, Repr

/-- `Buffer::new(max_payload)`: zero-filled data, all cursors zero. -/
def Buffer.new (max_payload : Nat) : Buffer :=
  { data := List.replicate max_payload 0
    segment_size := 0
    segment_count := 0
    segment_write_cursor := 0
    segment_read_cursor := 0 }

/-- `Buffer::reset`: zero the four cursors, touch nothing else. -/
def Buffer.reset (b : Buffer) : Buffer :=
  { b with
    segment_size := 0
    segment_count := 0
    segment_write_cursor := 0
    segment_read_cursor := 0 }

/-- The debug assertions of `Buffer::invariants`, as a boolean predicate. -/
def Buffer.invariantsOk (b : Buffer) : Bool :=
  (if b.segment_count > 0 then
    decide (b.segment_size ≠ 0) && decide (b.segment_write_cursor ≠ 0)
  else
    decide (b.segment_size = 0) && decide (b.segment_write_cursor = 0)
      && decide (b.segment_read_cursor = 0))
  && decide (b.segment_read_cursor ≤ b.segment_write_cursor)

/-- A packet slot: `Entry`/`InnerEntry` of `channel.rs` (the `Box`
indirection is dropped). -/
structure Entry where
  handle : Handle
  ecn : ECN
  payload : Buffer
  id : Nat
  queue : Nat
deriving DecidableEq, Repr

/-- `inet::Header` as produced by `rx::Entry::next_segment`. -/
structure InetHeader where
  path : Handle
  ecn : ECN
deriving DecidableEq, Repr

/-- Errors of `s2n_quic_core::io::tx::Error`: `AtCapacity`, plus an opaque
code for any other error a message writer may produce. -/
inductive TxError where
  | atCapacity
  | code (n : Nat)
deriving DecidableEq, Repr

/-- Result of a `write_payload` call made by a TX message. -/
inductive WriteRes where
  | ok (bytes : List Nat)
  | err (e : TxError)
deriving DecidableEq, Repr

/-- A TX message (`s2n_quic_core::io::tx::Message`): a path handle, an ECN
marking, the GSO predicate, and the payload writer.  `write_payload` receives
the length of the offered byte region and the segment index, and on success
returns the bytes it wrote (the returned length is the length of that list);
the writer contract is that it never writes more than the offered region. -/
structure Message where
  path_handle : Handle
  ecn : ECN
  can_gso : Nat → Nat → Bool
  write_payload : Nat → Nat → WriteRes

/-- `Entry::can_gso` (channel.rs lines 56-68): the first message can always
be written; otherwise the message must accept GSO for the current segment
size and count, and ECN and path handle must match the slot. -/
def Entry.can_gso (e : Entry) (m : Message) : Bool :=
  if e.payload.segment_size = 0 then
    true
  else
    m.can_gso e.payload.segment_size e.payload.segment_count
      && decide (e.ecn = m.ecn)
      && decide (e.handle = m.path_handle)

/-- Overwrite `data[start .. start + bytes.length)` with `bytes`
(in-bounds writes only; all calls made by the model are in bounds whenever
the writer contract holds). -/
def listWriteAt (data : List Nat) (start : Nat) (bytes : List Nat) : List Nat :=
  data.take start ++ bytes ++ data.drop (start + bytes.length)

/-- `rx::Entry::next_segment` (channel.rs lines 351-378): returns the header
and the next segment byte range, advancing the read cursor; `none` once the
read cursor has caught up with the write cursor. -/
def Entry.next_segment (e : Entry) : Option (InetHeader × List Nat × Entry) :=
  let p := e.payload
  if p.segment_read_cursor = p.segment_write_cursor then
    none
  else
    let start := p.segment_read_cursor
    let stop := min p.segment_write_cursor (start + p.segment_size)
    let seg := (p.data.drop start).take (stop - start)
    some (⟨e.handle, e.ecn⟩, seg, { e with payload := { p with segment_read_cursor := stop } })

/-- The combined state of one ring pair.  It aggregates the two spec-modelled
SPSC queues together with the one-slot buffers of both ends:
`unfilled_q`/`unfilled_buffer` belong to the `Unfilled` end (its `local`
receiver and `buffer`), `filled_q`/`filled_buffer` to the `Filled` end.
The `Unfilled` end's `remote` sender is the filled queue and vice versa.
`cap` is the construction-time capacity `count` of both queues. -/
structure PairState where
  cap : Nat
  unfilled_q : List Entry
  filled_q : List Entry
  unfilled_buffer : Option Entry
  filled_buffer : Option Entry
deriving DecidableEq, Repr

/-- Modelled from the spec: the SPSC queue of `s2n_quic_core::sync::spsc`
(not under the sources of this tree) is a bounded FIFO; `push` moves the
value to the tail and fails when the queue is full.  The channel code always
discards the result of `push` (`let _ = ... .push(entry)`), so a push against
a full queue silently drops the entry; this definition mirrors exactly that
call pattern. -/
def spscPushDrop (cap : Nat) (q : List Entry) (e : Entry) : List Entry :=
  if q.length < cap then q ++ [e] else q

/-- `UnfilledSlice::pop`: take the buffered slot if present, else pop the
head of the unfilled queue. -/
def PairState.unfilledPop (s : PairState) : Option (Entry × PairState) :=
  match s.unfilled_buffer with
  | some e => some (e, { s with unfilled_buffer := none })
  | none =>
    match s.unfilled_q with
    | [] => none
    | e :: rest => some (e, { s with unfilled_q := rest })

/-- The metadata/payload update of `UnfilledSlice::push` (channel.rs lines
278-303) for the selected entry: `segment_size` is the *local* variable of
the push (zero when the slot is treated as empty).  When it is zero the
writer wrote at offset 0 into the whole buffer and the code records the
message's path handle and starts a fresh segment run; note that the code
does *not* record the message's ECN.  Otherwise the write happened at the
write cursor and the counters advance. -/
def writeUpdate (entry : Entry) (segment_size : Nat) (h : Handle) (bytes : List Nat) : Entry :=
  let len := bytes.length
  let p := entry.payload
  if segment_size = 0 then
    { entry with
      handle := h
      payload := { p with
        data := listWriteAt p.data 0 bytes
        segment_count := 1
        segment_size := len
        segment_write_cursor := len } }
  else
    { entry with
      payload := { p with
        data := listWriteAt p.data p.segment_write_cursor bytes
        segment_count := p.segment_count + 1
        segment_write_cursor := p.segment_write_cursor + len } }

/-- Result type of `UnfilledSlice::push`. -/
inductive TxRes where
  | ok (len : Nat)
  | err (e : TxError)
deriving DecidableEq, Repr

/-- The force-flush condition of `UnfilledSlice::push` (channel.rs lines
311-314), evaluated on the updated entry: the final segment is undersized
(`len < segment_size`), or the next segment would not fit in the buffer
(`segment_write_cursor + segment_size > data.len()`). -/
def flushCond (entry : Entry) (len : Nat) : Bool :=
  decide (len < entry.payload.segment_size)
    || decide (entry.payload.segment_write_cursor + entry.payload.segment_size
        > entry.payload.data.length)

/-- The tail of `UnfilledSlice::push` (channel.rs lines 278-326), entered
once an entry has been selected: offer the writer either the whole buffer
(slot treated as empty, local `segment_size = 0`) or one segment-sized
region at the write cursor; on writer error put the entry in the buffer
slot unchanged and surface the error; on success apply `writeUpdate` and
then either force-flush the entry to the filled queue (undersized final
segment, or the next segment would not fit) or retain it in the buffer
slot. -/
def PairState.pushSelected (s : PairState) (entry : Entry)
    (segment_size segment_count : Nat) (m : Message) : TxRes × PairState :=
  let offered := if segment_size = 0 then entry.payload.data.length else segment_size
  match m.write_payload offered segment_count with
  | .err c => (.err c, { s with unfilled_buffer := some entry })
  | .ok bytes =>
    let len := bytes.length
    let entry' := writeUpdate entry segment_size m.path_handle bytes
    if flushCond entry' len then
      (.ok len, { s with filled_q := spscPushDrop s.cap s.filled_q entry' })
    else
      (.ok len, { s with unfilled_buffer := some entry' })

/-- `UnfilledSlice::push` (channel.rs lines 258-326): pop an entry (buffer
first); if it cannot absorb the message (`can_gso` fails) push it to the
filled queue and pop a fresh entry, resetting the local segment variables to
zero; then run the write tail. -/
def PairState.push (s0 : PairState) (m : Message) : TxRes × PairState :=
  match s0.unfilledPop with
  | none => (.err .atCapacity, s0)
  | some (entry, s1) =>
    if entry.can_gso m then
      s1.pushSelected entry entry.payload.segment_size entry.payload.segment_count m
    else
      let s2 := { s1 with filled_q := spscPushDrop s1.cap s1.filled_q entry }
      match s2.unfilledPop with
      | none => (.err .atCapacity, s2)
      | some (e2, s3) => s3.pushSelected e2 0 0 m

/-- `UnfilledSlice::flush` (run on drop of a TX slice): a buffered entry with
at least one segment is pushed to the filled queue; an empty buffered entry
stays in place. -/
def PairState.unfilledFlush (s : PairState) : PairState :=
  match s.unfilled_buffer with
  | none => s
  | some e =>
    if e.payload.segment_count > 0 then
      { s with unfilled_buffer := none, filled_q := spscPushDrop s.cap s.filled_q e }
    else
      s

/-- `FilledSlice::pop`: take the buffered slot if present, else pop the head
of the filled queue. -/
def PairState.filledPop (s : PairState) : Option (Entry × PairState) :=
  match s.filled_buffer with
  | some e => some (e, { s with filled_buffer := none })
  | none =>
    match s.filled_q with
    | [] => none
    | e :: rest => some (e, { s with filled_q := rest })

/-- `FilledSlice::finish` (channel.rs lines 458-462): push the returned
entry onto the unfilled queue.  The entry is pushed exactly as handed back:
the code checks the debug invariants but does not reset the cursors. -/
def PairState.finish (s : PairState) (e : Entry) : PairState :=
  { s with unfilled_q := spscPushDrop s.cap s.unfilled_q e }

/-- `pair_inner(max_payload, count, queue)` (channel.rs lines 490-536):
create the two queues with capacity `count`, create `count` slots with
default handle and ECN and zeroed buffers, and push them all into the
unfilled queue. -/
def pair_inner (max_payload count queue : Nat) : PairState :=
  { cap := count
    unfilled_q := (List.range count).map fun id =>
      { handle := Handle.default
        ecn := ECN.notEct
        payload := Buffer.new max_payload
        id := id
        queue := queue }
    filled_q := []
    unfilled_buffer := none
    filled_buffer := none }

/-- `FilledSetSlice::finish` (channel.rs lines 860-868): route the returned
entry to the ring pair selected by its `queue` id and push it onto that
pair's unfilled queue.  An out-of-range `queue` id would make the indexing
of the source panic; the model leaves the set unchanged in that case, which
is unreachable for slots created by `set`. -/
def setFinish (ps : List PairState) (e : Entry) : List PairState :=
  match ps[e.queue]? with
  | some p => ps.set e.queue (p.finish e)
  | none => ps

/-- The `io::ErrorKind` values distinguished by the socket driver
(`socket/msg.rs`): `Interrupted`, `WouldBlock`, and everything else. -/
inductive IoErr where
  | interrupted
  | wouldBlock
  | other
deriving DecidableEq, Repr

/-- Outcome of one `sendmsg` call. -/
inductive SendRes where
  | ok (len : Nat)
  | err (e : IoErr)
deriving DecidableEq, Repr

/-- Data reported by one successful `recvmsg` call: the received bytes (the
syscall length is their count), the reported remote address (`none` when the
message carries no source address), and the ancillary control data.
The control-data fields are spec-modelled (the `crate::message::cmsg` sources
are not part of this tree): per the spec they carry the local destination
address, the GRO segment size, and the received ECN marking. -/
structure RecvOk where
  bytes : List Nat
  remote : Option Nat
  cmsg_local : Nat
  cmsg_segment_size : Nat
  cmsg_ecn : ECN
deriving DecidableEq, Repr

/-- Outcome of one `recvmsg` call. -/
inductive RecvRes where
  | ok (rc : RecvOk)
  | err (e : IoErr)
deriving DecidableEq, Repr

/-- The `io::Result<()>` returned by the apply loops. -/
inductive ApplyRes where
  | ok
  | err (e : IoErr)
deriving DecidableEq, Repr

/-- `Tx::apply` (socket/msg.rs lines 121-181): repeatedly pop a filled slot
and send it.  The socket is modelled by the trace of its successive
`sendmsg` outcomes; the loop stops when the filled side is exhausted (and
additionally, in the model, when the trace is exhausted, re-buffering the
popped slot).  On success the slot is `reset` and pushed back to the
unfilled queue — note that the code does not increment `count` there; on a
first `Interrupted` (`count == 0`) the slot is re-buffered and the send
retried; on `WouldBlock` or a later `Interrupted` the slot is re-buffered
and the error returned; on any other error the slot is reset, pushed back,
and the loop continues. -/
def txApply (trace : List SendRes) (count : Nat) (s : PairState) : ApplyRes × PairState :=
  match s.filledPop with
  | none => (.ok, s)
  | some (entry, s1) =>
    match trace with
    | [] => (.ok, { s1 with filled_buffer := some entry })
    | r :: rest =>
      match r with
      | .ok _len =>
        txApply rest count
          { s1 with
            unfilled_q :=
              (spscPushDrop s1.cap s1.unfilled_q
                { entry with payload := entry.payload.reset }) }
      | .err .interrupted =>
        if count = 0 then
          txApply rest (count + 1) { s1 with filled_buffer := some entry }
        else
          (.err .interrupted, { s1 with filled_buffer := some entry })
      | .err .wouldBlock =>
        (.err .wouldBlock, { s1 with filled_buffer := some entry })
      | .err .other =>
        txApply rest (count + 1)
          { s1 with
            unfilled_q :=
              (spscPushDrop s1.cap s1.unfilled_q
                { entry with payload := entry.payload.reset }) }

/-- The slot update performed by `Rx::apply` on a successful receive that
reports a remote address (socket/msg.rs lines 211-244): record remote and
local addresses in the handle, write the received bytes at offset 0, set
`read = 0`, `write = len`, and derive the segment accounting from the GRO
segment size (`0` means a single segment of size `len`, otherwise
`segment_count = ceil(len / segment_size)`).  The received length is clamped
to the buffer capacity as in the source.  Note that the code does *not*
record the received ECN marking from the control data. -/
def rxProcess (entry : Entry) (rc : RecvOk) (remote : Nat) : Entry :=
  let len := min rc.bytes.length entry.payload.data.length
  let p := entry.payload
  let p1 := { p with
    data := listWriteAt p.data 0 (rc.bytes.take len)
    segment_read_cursor := 0
    segment_write_cursor := len }
  let p2 :=
    if rc.cmsg_segment_size = 0 then
      { p1 with segment_size := len, segment_count := 1 }
    else
      { p1 with
        segment_size := rc.cmsg_segment_size
        segment_count := (len + rc.cmsg_segment_size - 1) / rc.cmsg_segment_size }
  { entry with
    handle := { remote_address := remote, local_address := rc.cmsg_local }
    payload := p2 }

/-- `Rx::apply` (socket/msg.rs lines 190-270): repeatedly pop an unfilled
slot and receive into it.  A success without a remote address re-buffers the
slot and *continues* the loop (the same slot is popped again for the next
receive); a success with a remote address applies `rxProcess`, pushes the
slot to the filled queue and increments `count`; error handling mirrors
`Tx::apply` except that permanent errors re-buffer the slot instead of
pushing it back. -/
def rxApply (trace : List RecvRes) (count : Nat) (s : PairState) : ApplyRes × PairState :=
  match s.unfilledPop with
  | none => (.ok, s)
  | some (entry, s1) =>
    match trace with
    | [] => (.ok, { s1 with unfilled_buffer := some entry })
    | r :: rest =>
      match r with
      | .ok rc =>
        match rc.remote with
        | none => rxApply rest count { s1 with unfilled_buffer := some entry }
        | some a =>
          rxApply rest (count + 1)
            { s1 with filled_q := spscPushDrop s1.cap s1.filled_q (rxProcess entry rc a) }
      | .err .interrupted =>
        if count = 0 then
          rxApply rest (count + 1) { s1 with unfilled_buffer := some entry }
        else
          (.err .interrupted, { s1 with unfilled_buffer := some entry })
      | .err .wouldBlock =>
        (.err .wouldBlock, { s1 with unfilled_buffer := some entry })
      | .err .other =>
        rxApply rest (count + 1) { s1 with unfilled_buffer := some entry }

/-- Number of entries held by an optional one-slot buffer. -/
def optLen : Option Entry → Nat
  | none => 0
  | some _ => 1

/-- Number of entries currently inside a pair state: both queues plus both
one-slot buffers. -/
def PairState.total (s : PairState) : Nat :=
  s.unfilled_q.length + s.filled_q.length + optLen s.unfilled_buffer + optLen s.filled_buffer

/-- The operations of one ring pair, as a transition relation on the pair
state together with the list of entries currently checked out to the
consumer (popped from the filled side and not yet returned via `finish`). -/
inductive Step : PairState → List Entry → PairState → List Entry → Prop where
  | push (s : PairState) (h : List Entry) (m : Message) :
      Step s h (s.push m).2 h
  | flush (s : PairState) (h : List Entry) :
      Step s h s.unfilledFlush h
  | filledPop (s s' : PairState) (h : List Entry) (e : Entry) :
      s.filledPop = some (e, s') → Step s h s' (e :: h)
  | finish (s : PairState) (h : List Entry) (e : Entry) :
      Step s (e :: h) (s.finish e) h
  | txApply (s : PairState) (h : List Entry) (trace : List SendRes) :
      Step s h (txApply trace 0 s).2 h
  | rxApply (s : PairState) (h : List Entry) (trace : List RecvRes) :
      Step s h (rxApply trace 0 s).2 h

/-! ### Helper lemmas -/

theorem spscPushDrop_append (cap : Nat) (q : List Entry) (e : Entry)
    (h : q.length < cap) : spscPushDrop cap q e = q ++ [e] := by
  simp [spscPushDrop, h]

theorem unfilledPop_spec (s s' : PairState) (e : Entry)
    (h : s.unfilledPop = some (e, s')) :
    s'.total + 1 = s.total ∧ s'.cap = s.cap ∧ s'.filled_q = s.filled_q
      ∧ s'.filled_buffer = s.filled_buffer ∧ s'.unfilled_buffer = none := by
  unfold PairState.unfilledPop at h
  cases hb : s.unfilled_buffer with
  | some x =>
    rw [hb] at h
    simp only [Option.some.injEq, Prod.mk.injEq] at h
    obtain ⟨rfl, rfl⟩ := h
    cases hfb : s.filled_buffer <;> simp [PairState.total, optLen, hb, hfb] <;> omega
  | none =>
    rw [hb] at h
    cases hq : s.unfilled_q with
    | nil => rw [hq] at h; simp at h
    | cons a t =>
      rw [hq] at h
      simp only [Option.some.injEq, Prod.mk.injEq] at h
      obtain ⟨rfl, rfl⟩ := h
      cases hfb : s.filled_buffer <;>
        simp [PairState.total, optLen, hb, hfb, hq] <;> omega

theorem filledPop_spec (s s' : PairState) (e : Entry)
    (h : s.filledPop = some (e, s')) :
    s'.total + 1 = s.total ∧ s'.cap = s.cap ∧ s'.unfilled_q = s.unfilled_q
      ∧ s'.unfilled_buffer = s.unfilled_buffer ∧ s'.filled_buffer = none := by
  unfold PairState.filledPop at h
  cases hb : s.filled_buffer with
  | some x =>
    rw [hb] at h
    simp only [Option.some.injEq, Prod.mk.injEq] at h
    obtain ⟨rfl, rfl⟩ := h
    cases hub : s.unfilled_buffer <;> simp [PairState.total, optLen, hb, hub] <;> omega
  | none =>
    rw [hb] at h
    cases hq : s.filled_q with
    | nil => rw [hq] at h; simp at h
    | cons a t =>
      rw [hq] at h
      simp only [Option.some.injEq, Prod.mk.injEq] at h
      obtain ⟨rfl, rfl⟩ := h
      cases hub : s.unfilled_buffer <;>
        simp [PairState.total, optLen, hb, hub, hq] <;> omega

theorem filled_le_total (s : PairState) : s.filled_q.length ≤ s.total := by
  simp [PairState.total]
  omega

theorem unfilled_le_total (s : PairState) : s.unfilled_q.length ≤ s.total := by
  simp [PairState.total]
  omega

/-! ### Claim theorems: reset frame and writer error -/

/-- Claim C10: `Buffer::reset` zeroes exactly the four segment counters; the
payload bytes are untouched, and since `reset` acts only on the payload the
slot's handle, ECN marking, id and queue tag all keep their previous values
(so a slot reused from the unfilled queue still carries the handle and ECN
of its previous use). -/
theorem reset_frame (b : Buffer) (e : Entry) :
    b.reset.segment_size = 0 ∧ b.reset.segment_count = 0
    ∧ b.reset.segment_write_cursor = 0 ∧ b.reset.segment_read_cursor = 0
    ∧ b.reset.data = b.data
    ∧ ({ e with payload := e.payload.reset } : Entry).handle = e.handle
    ∧ ({ e with payload := e.payload.reset } : Entry).ecn = e.ecn
    ∧ ({ e with payload := e.payload.reset } : Entry).id = e.id
    ∧ ({ e with payload := e.payload.reset } : Entry).queue = e.queue :=
  ⟨rfl, rfl, rfl, rfl, rfl, rfl, rfl, rfl, rfl⟩

/-- Claim C9: when the message writer errors, the write tail of
`UnfilledSlice::push` places the slot being written back in the producer's
buffer slot completely unchanged — the very entry that was selected, with
its segment counters, cursors, handle and ECN as they were before the
`write_payload` call — and returns the writer's error to the caller.  Every
push, whether it coalesces into the buffered slot or starts a fresh one,
ends in this write tail (`PairState.pushSelected`). -/
theorem push_writer_error (s : PairState) (e : Entry) (sz ct : Nat) (m : Message)
    (c : TxError)
    (hw : m.write_payload (if sz = 0 then e.payload.data.length else sz) ct = .err c) :
    s.pushSelected e sz ct m = (.err c, { s with unfilled_buffer := some e }) := by
  simp [PairState.pushSelected, hw]

def c9_entry : Entry :=
  { handle := ⟨5, 6⟩, ecn := .ect1, payload := Buffer.new 8, id := 0, queue := 0 }

def c9_msg : Message :=
  { path_handle := ⟨1, 2⟩
    ecn := .notEct
    can_gso := fun _ _ => true
    write_payload := fun _ _ => .err (.code 3) }

def c9_state : PairState := pair_inner 8 1 0

theorem push_writer_error_witness :
    c9_msg.write_payload (if 0 = 0 then c9_entry.payload.data.length else 0) 0
        = .err (.code 3)
    ∧ c9_state.pushSelected c9_entry 0 0 c9_msg
        = (.err (.code 3), { c9_state with unfilled_buffer := some c9_entry }) :=
  ⟨rfl, push_writer_error c9_state c9_entry 0 0 c9_msg (.code 3) rfl⟩

/-! ### Claim theorem: force flush -/

/-- Claim C4: a successful push returns `Ok(len)` with `len` the number of
bytes the writer produced, and the slot is pushed to the filled queue
immediately exactly when the force-flush condition holds for the updated
entry (`len < segment_size`, or the next segment would overflow the
buffer); otherwise the slot is retained in the producer's buffer slot.
After a force-flush the buffer slot is empty, so the next push begins by
popping a slot from the unfilled queue. -/
theorem push_force_flush (s : PairState) (e : Entry) (sz ct : Nat) (m : Message)
    (bytes : List Nat)
    (hb : s.unfilled_buffer = none)
    (hroom : s.filled_q.length < s.cap)
    (hw : m.write_payload (if sz = 0 then e.payload.data.length else sz) ct = .ok bytes) :
    (s.pushSelected e sz ct m).1 = .ok bytes.length
    ∧ (flushCond (writeUpdate e sz m.path_handle bytes) bytes.length = true →
        (s.pushSelected e sz ct m).2.filled_q
            = s.filled_q ++ [writeUpdate e sz m.path_handle bytes]
        ∧ (s.pushSelected e sz ct m).2.unfilled_buffer = none)
    ∧ (flushCond (writeUpdate e sz m.path_handle bytes) bytes.length = false →
        (s.pushSelected e sz ct m).2.filled_q = s.filled_q
        ∧ (s.pushSelected e sz ct m).2.unfilled_buffer
            = some (writeUpdate e sz m.path_handle bytes)) := by
  cases hf : flushCond (writeUpdate e sz m.path_handle bytes) bytes.length <;>
    simp [PairState.pushSelected, hw, hf, spscPushDrop, hroom, hb]

def c4_entry : Entry :=
  { handle := ⟨0, 0⟩, ecn := .notEct, payload := Buffer.new 16, id := 0, queue := 0 }

def c4_msg : Message :=
  { path_handle := ⟨1, 2⟩
    ecn := .notEct
    can_gso := fun _ _ => true
    write_payload := fun _ _ => .ok [1, 2, 3, 4, 5, 6, 7, 8, 9, 10, 11] }

def c4_state : PairState := pair_inner 16 1 0

theorem push_force_flush_witness :
    c4_state.unfilled_buffer = none
    ∧ c4_state.filled_q.length < c4_state.cap
    ∧ (c4_state.pushSelected c4_entry 0 0 c4_msg).1 = .ok 11 :=
  ⟨rfl, by decide,
    (push_force_flush c4_state c4_entry 0 0 c4_msg
      [1, 2, 3, 4, 5, 6, 7, 8, 9, 10, 11] rfl (by decide) rfl).1⟩

/-! ### Claim theorem: GSO coalescing decision -/

/-- Claim C3: for a push onto a non-empty buffered slot, the message is
coalesced into that same slot (the push proceeds to the write tail with the
buffered entry and its current segment size and count) exactly when
`can_gso(segment_size, segment_count)` holds, the message ECN equals the
slot ECN, and the path handles are strict-equal; when the condition fails
the buffered slot is first pushed to the filled queue and a fresh slot is
popped from the unfilled queue (with the local segment variables reset to
zero), failing `AtCapacity` when none is available. -/
theorem push_coalescing (s : PairState) (e : Entry) (m : Message)
    (hb : s.unfilled_buffer = some e)
    (hsz : e.payload.segment_size ≠ 0) :
    (e.can_gso m = true ↔
      (m.can_gso e.payload.segment_size e.payload.segment_count = true
        ∧ e.ecn = m.ecn ∧ e.handle = m.path_handle))
    ∧ (e.can_gso m = true →
        s.push m = PairState.pushSelected { s with unfilled_buffer := none }
          e e.payload.segment_size e.payload.segment_count m)
    ∧ (e.can_gso m = false → s.filled_q.length < s.cap → s.unfilled_q = [] →
        s.push m = (.err .atCapacity,
          { s with unfilled_buffer := none, filled_q := s.filled_q ++ [e] }))
    ∧ (∀ f rest, e.can_gso m = false → s.filled_q.length < s.cap →
        s.unfilled_q = f :: rest →
        s.push m = PairState.pushSelected
          { s with
            unfilled_buffer := none
            filled_q := s.filled_q ++ [e]
            unfilled_q := rest } f 0 0 m) := by
  refine ⟨?_, ?_, ?_, ?_⟩
  · simp [Entry.can_gso, hsz, Bool.and_eq_true, decide_eq_true_eq, and_assoc]
  · intro hg
    simp [PairState.push, PairState.unfilledPop, hb, hg]
  · intro hg hroom hq
    simp [PairState.push, PairState.unfilledPop, hb, hg, hq, spscPushDrop, hroom]
  · intro f rest hg hroom hq
    simp [PairState.push, PairState.unfilledPop, hb, hg, hq, spscPushDrop, hroom]

def c3_entry : Entry :=
  { handle := ⟨1, 2⟩
    ecn := .ect0
    payload := { data := List.replicate 16 0, segment_size := 4, segment_count := 1,
                 segment_write_cursor := 4, segment_read_cursor := 0 }
    id := 0
    queue := 0 }

def c3_msg : Message :=
  { path_handle := ⟨1, 2⟩
    ecn := .ect0
    can_gso := fun _ _ => true
    write_payload := fun _ _ => .ok [9, 9, 9, 9] }

def c3_state : PairState :=
  { cap := 2, unfilled_q := [], filled_q := [], unfilled_buffer := some c3_entry,
    filled_buffer := none }

theorem push_coalescing_witness :
    c3_state.unfilled_buffer = some c3_entry
    ∧ c3_entry.payload.segment_size ≠ 0
    ∧ (c3_entry.can_gso c3_msg = true ↔
        (c3_msg.can_gso c3_entry.payload.segment_size c3_entry.payload.segment_count = true
          ∧ c3_entry.ecn = c3_msg.ecn ∧ c3_entry.handle = c3_msg.path_handle)) :=
  ⟨rfl, by decide, (push_coalescing c3_state c3_entry c3_msg rfl (by decide)).1⟩

/-! ### Claim C5: finish does not reset, but routes by queue id -/

def c5_entry : Entry :=
  { handle := ⟨1, 2⟩
    ecn := .ect0
    payload := { data := List.replicate 8 0, segment_size := 5, segment_count := 1,
                 segment_write_cursor := 5, segment_read_cursor := 5 }
    id := 0
    queue := 1 }

def c5_pair : PairState :=
  { cap := 1, unfilled_q := [], filled_q := [], unfilled_buffer := none,
    filled_buffer := none }

/-- Claim C5 as stated is false: `FilledSlice::finish` pushes the returned
slot onto the unfilled queue *without* resetting its cursors.  A fully
drained slot (`segment_size = 5`, `segment_count = 1`, write and read
cursors `5`) sits in the unfilled queue after `finish` with all four
counters unchanged and non-zero, where the claim requires them to be
zeroed. -/
theorem finish_does_not_reset :
    (c5_pair.finish c5_entry).unfilled_q = [c5_entry]
    ∧ c5_entry.payload.segment_size = 5
    ∧ c5_entry.payload.segment_count = 1
    ∧ c5_entry.payload.segment_write_cursor = 5
    ∧ c5_entry.payload.segment_read_cursor = 5 := by decide

/-- Claim C5 (amended): `finish` pushes the slot back *unchanged* — the
cursors are not reset — onto the unfilled queue of the ring pair identified
by the slot's `queue` id, regardless of which pair's filled queue the slot
was drained from; every other pair of the set is untouched, so each pair's
slot count is preserved under arbitrary cross-pair consumption. -/
theorem finish_routes_by_queue_id (ps : List PairState) (e : Entry) (p : PairState)
    (hp : ps[e.queue]? = some p)
    (hroom : p.unfilled_q.length < p.cap) :
    setFinish ps e = ps.set e.queue { p with unfilled_q := p.unfilled_q ++ [e] }
    ∧ (setFinish ps e)[e.queue]? = some { p with unfilled_q := p.unfilled_q ++ [e] }
    ∧ ∀ j, j ≠ e.queue → (setFinish ps e)[j]? = ps[j]? := by
  have h1 : setFinish ps e = ps.set e.queue { p with unfilled_q := p.unfilled_q ++ [e] } := by
    simp [setFinish, hp, PairState.finish, spscPushDrop, hroom]
  have hlen : e.queue < ps.length := (List.getElem?_eq_some.mp hp).1
  refine ⟨h1, ?_, ?_⟩
  · rw [h1]
    exact List.getElem?_set_eq_of_lt _ hlen
  · intro j hj
    rw [h1]
    exact List.getElem?_set_ne (fun hh => hj hh.symm)

theorem finish_routes_by_queue_id_witness :
    [c5_pair, c5_pair][c5_entry.queue]? = some c5_pair
    ∧ c5_pair.unfilled_q.length < c5_pair.cap
    ∧ setFinish [c5_pair, c5_pair] c5_entry
        = [c5_pair, { c5_pair with unfilled_q := [c5_entry] }] := by
  refine ⟨rfl, by decide, ?_⟩
  have h := (finish_routes_by_queue_id [c5_pair, c5_pair] c5_entry c5_pair rfl (by decide)).1
  simpa using h

/-! ### Claim C1: the TX push records the handle but not the ECN -/

/-- The message of the C1 scenario: path handle `H = (1, 2)`, ECN `ECT(0)`,
writer producing the 11 bytes of `"hello world"`. -/
def c1_msg : Message :=
  { path_handle := ⟨1, 2⟩
    ecn := .ect0
    can_gso := fun _ _ => true
    write_payload := fun _ _ =>
      .ok [104, 101, 108, 108, 111, 32, 119, 111, 114, 108, 100] }

/-- The entry produced by pushing `c1_msg` into a fresh `pair(16, 2)` ring
(the 11-byte write force-flushes the 16-byte slot to the filled queue, so it
is the one popped on the filled side). -/
def c1_popped : Option Entry :=
  (((pair_inner 16 2 0).push c1_msg).2.filledPop).map Prod.fst

/-- Claim C1 on the divergent input: pushing one message with handle
`H = (1, 2)` and ECN `ECT(0)` into a fresh ring updates the empty slot as the
claim says for `segment_size`, `segment_count`, `segment_write_cursor` and
the handle, but the slot's ECN marking stays at its previous (default)
`Not-ECT` value — the push never writes `entry.ecn` — so the segment popped
on the filled side carries the header `(H, Not-ECT)` instead of the claimed
`(H, ECT(0))`. -/
theorem push_does_not_record_ecn :
    ((pair_inner 16 2 0).push c1_msg).1 = .ok 11
    ∧ c1_popped.map Entry.handle = some ⟨1, 2⟩
    ∧ c1_popped.map (fun e => e.payload.segment_size) = some 11
    ∧ c1_popped.map (fun e => e.payload.segment_count) = some 1
    ∧ c1_popped.map (fun e => e.payload.segment_write_cursor) = some 11
    ∧ c1_msg.ecn = .ect0
    ∧ c1_popped.map Entry.ecn = some .notEct
    ∧ (c1_popped.map fun e => (e.next_segment).map fun r => (r.1, r.2.1))
        = some (some (⟨⟨1, 2⟩, .notEct⟩,
            [104, 101, 108, 108, 111, 32, 119, 111, 114, 108, 100])) := by
  decide

/-! ### Claim C6: the RX driver records addresses and cursors but not ECN -/

/-- A receive of 10 bytes with remote address `7`, local address `9` from the
control data, GRO segment size `4`, and received ECN `ECT(0)`. -/
def c6_rc : RecvOk :=
  { bytes := [1, 2, 3, 4, 5, 6, 7, 8, 9, 10]
    remote := some 7
    cmsg_local := 9
    cmsg_segment_size := 4
    cmsg_ecn := .ect0 }

def c6_run : ApplyRes × PairState := rxApply [.ok c6_rc] 0 (pair_inner 16 1 0)

/-- Claim C6 on the divergent input: on a successful receive that reports a
remote address, the RX driver does set the remote and local addresses, the
cursors (`read = 0`, `write = len`) and the segment accounting
(`segment_size` from control data, `segment_count = ceil(len/segment_size)`)
and pushes the slot to the filled queue — but it never copies the received
ECN marking from the control data into the slot, which keeps its previous
(default) `Not-ECT` value. -/
theorem rx_apply_does_not_record_ecn :
    c6_run.1 = .ok
    ∧ c6_run.2.filled_q.map Entry.handle = [⟨7, 9⟩]
    ∧ c6_run.2.filled_q.map (fun e => e.payload.segment_read_cursor) = [0]
    ∧ c6_run.2.filled_q.map (fun e => e.payload.segment_write_cursor) = [10]
    ∧ c6_run.2.filled_q.map (fun e => e.payload.segment_size) = [4]
    ∧ c6_run.2.filled_q.map (fun e => e.payload.segment_count) = [3]
    ∧ c6_rc.cmsg_ecn = .ect0
    ∧ c6_run.2.filled_q.map Entry.ecn = [.notEct] := by
  decide

/-! ### Claim C7: Interrupted after a successful send is retried -/

def c7_entry (i : Nat) : Entry :=
  { handle := ⟨3, 4⟩
    ecn := .notEct
    payload := { data := List.replicate 8 1, segment_size := 8, segment_count := 1,
                 segment_write_cursor := 8, segment_read_cursor := 0 }
    id := i
    queue := 0 }

def c7_state : PairState :=
  { cap := 2, unfilled_q := [], filled_q := [c7_entry 0, c7_entry 1],
    unfilled_buffer := none, filled_buffer := none }

/-- Claim C7 on the divergent input: with two filled slots and the sendmsg
trace `Ok, Interrupted, WouldBlock`, the claim requires the `Interrupted`
(which follows one successful send) to re-buffer the slot and *return*, so
the third socket call would never happen.  The code instead retries — its
`count` is only incremented on handled errors, never on the successful-send
branch — so the third `sendmsg` is issued and its `WouldBlock` is what the
function returns. -/
theorem tx_apply_retries_interrupted_after_success :
    (txApply [.ok 8, .err .interrupted, .err .wouldBlock] 0 c7_state).1
        = .err .wouldBlock
    ∧ (txApply [.ok 8, .err .interrupted, .err .wouldBlock] 0 c7_state).1
        ≠ .err .interrupted := by
  decide

/-! ### Claim C8: the RX driver continues after a receive with no remote -/

def c8_no_remote : RecvOk :=
  { bytes := [1, 2, 3], remote := none, cmsg_local := 0, cmsg_segment_size := 0,
    cmsg_ecn := .notEct }

def c8_zero_len : RecvOk :=
  { bytes := [], remote := some 7, cmsg_local := 9, cmsg_segment_size := 0,
    cmsg_ecn := .notEct }

/-- Claim C8 as stated is false twice over.  (1) After a successful receive
that reports no remote address, the claim says the loop stops; with the
trace `[no-remote success, WouldBlock]` a stopped loop would return `Ok`,
but the code re-buffers the slot and *continues*, issuing a second `recvmsg`
whose `WouldBlock` becomes the returned error.  (2) A zero-length receive
that does report a remote address is not re-buffered at all: the slot is
pushed to the filled queue (with `segment_count = 1` and `segment_size = 0`,
a state violating the code's own buffer invariants). -/
theorem rx_apply_no_remote_counterexample :
    (rxApply [.ok c8_no_remote, .err .wouldBlock] 0 (pair_inner 8 1 0)).1
        = .err .wouldBlock
    ∧ (rxApply [.ok c8_no_remote, .err .wouldBlock] 0 (pair_inner 8 1 0)).1 ≠ .ok
    ∧ (rxApply [.ok c8_zero_len] 0 (pair_inner 8 1 0)).2.unfilled_buffer = none
    ∧ (rxApply [.ok c8_zero_len] 0 (pair_inner 8 1 0)).2.filled_q.map
        (fun e => Buffer.invariantsOk e.payload) = [false] := by
  decide

/-- Claim C8 (amended): when `recvmsg` succeeds but reports no remote
address, the slot is re-buffered in the channel's buffer slot and the loop
*continues*, retrying with that same slot; a zero-length success that does
report a remote address is not re-buffered — it is processed and pushed to
the filled queue like any other success, with `segment_count = 1` and
`segment_size = 0` (a state on which the buffer invariants checked in debug
builds fail). -/
theorem rx_apply_no_remote_rebuffers_and_continues (rc : RecvOk)
    (rest : List RecvRes) (count : Nat) (s s1 : PairState) (e : Entry)
    (hpop : s.unfilledPop = some (e, s1)) :
    (rc.remote = none →
      rxApply (.ok rc :: rest) count s
        = rxApply rest count { s1 with unfilled_buffer := some e })
    ∧ (∀ a, rc.remote = some a → rc.bytes = [] → rc.cmsg_segment_size = 0 →
      rxApply (.ok rc :: rest) count s
        = rxApply rest (count + 1)
            { s1 with filled_q := spscPushDrop s1.cap s1.filled_q (rxProcess e rc a) }
      ∧ (rxProcess e rc a).payload.segment_count = 1
      ∧ (rxProcess e rc a).payload.segment_size = 0
      ∧ Buffer.invariantsOk (rxProcess e rc a).payload = false) := by
  constructor
  · intro hnr
    rw [rxApply, hpop]
    simp only [hnr]
  · intro a hr hz hseg
    refine ⟨?_, ?_, ?_, ?_⟩
    · rw [rxApply, hpop]
      simp only [hr]
    · simp [rxProcess, hz, hseg]
    · simp [rxProcess, hz, hseg]
    · simp [rxProcess, Buffer.invariantsOk, hz, hseg]

def c8w_entry : Entry :=
  { handle := Handle.default, ecn := .notEct, payload := Buffer.new 8, id := 0, queue := 0 }

def c8w_s1 : PairState :=
  { cap := 1, unfilled_q := [], filled_q := [], unfilled_buffer := none,
    filled_buffer := none }

theorem rx_apply_no_remote_rebuffers_and_continues_witness :
    (pair_inner 8 1 0).unfilledPop = some (c8w_entry, c8w_s1)
    ∧ c8_no_remote.remote = none
    ∧ rxApply [.ok c8_no_remote] 0 (pair_inner 8 1 0)
        = rxApply [] 0 { c8w_s1 with unfilled_buffer := some c8w_entry } :=
  ⟨by decide, rfl,
    (rx_apply_no_remote_rebuffers_and_continues c8_no_remote [] 0
      (pair_inner 8 1 0) c8w_s1 c8w_entry (by decide)).1 rfl⟩

/-! ### Claim C2: slot conservation -/

theorem total_set_unfilled_buffer (s : PairState) (e : Entry)
    (hb : s.unfilled_buffer = none) :
    PairState.total { s with unfilled_buffer := some e } = s.total + 1 := by
  cases hfb : s.filled_buffer <;> simp [PairState.total, optLen, hb, hfb] <;> omega

theorem total_set_filled_buffer (s : PairState) (e : Entry)
    (hb : s.filled_buffer = none) :
    PairState.total { s with filled_buffer := some e } = s.total + 1 := by
  cases hub : s.unfilled_buffer <;> simp [PairState.total, optLen, hb, hub] <;> omega

theorem total_filled_append (s : PairState) (e : Entry) :
    PairState.total { s with filled_q := s.filled_q ++ [e] } = s.total + 1 := by
  cases hub : s.unfilled_buffer <;> cases hfb : s.filled_buffer <;>
    simp [PairState.total, optLen, hub, hfb] <;> omega

theorem total_unfilled_append (s : PairState) (e : Entry) :
    PairState.total { s with unfilled_q := s.unfilled_q ++ [e] } = s.total + 1 := by
  cases hub : s.unfilled_buffer <;> cases hfb : s.filled_buffer <;>
    simp [PairState.total, optLen, hub, hfb] <;> omega

theorem pushSelected_total (s : PairState) (e : Entry) (sz ct : Nat) (m : Message)
    (hb : s.unfilled_buffer = none)
    (hroom : s.filled_q.length < s.cap) :
    (s.pushSelected e sz ct m).2.total = s.total + 1
    ∧ (s.pushSelected e sz ct m).2.cap = s.cap := by
  simp only [PairState.pushSelected]
  cases hw : m.write_payload (if sz = 0 then e.payload.data.length else sz) ct with
  | err c =>
    exact ⟨total_set_unfilled_buffer s e hb, rfl⟩
  | ok bytes =>
    dsimp only
    by_cases hf : flushCond (writeUpdate e sz m.path_handle bytes) bytes.length = true
    · rw [if_pos hf, spscPushDrop_append _ _ _ hroom]
      exact ⟨total_filled_append s _, rfl⟩
    · rw [if_neg hf]
      exact ⟨total_set_unfilled_buffer s _ hb, rfl⟩

theorem push_total (s : PairState) (m : Message) (hcap : s.total ≤ s.cap) :
    (s.push m).2.total = s.total ∧ (s.push m).2.cap = s.cap := by
  unfold PairState.push
  cases hp : s.unfilledPop with
  | none => exact ⟨rfl, rfl⟩
  | some pr =>
    obtain ⟨entry, s1⟩ := pr
    dsimp only
    obtain ⟨ht1, hc1, hf1, hfb1, hub1⟩ := unfilledPop_spec s s1 entry hp
    have hroom1 : s1.filled_q.length < s1.cap := by
      have hle := filled_le_total s1
      omega
    by_cases hg : entry.can_gso m = true
    · rw [if_pos hg]
      obtain ⟨hT, hC⟩ :=
        pushSelected_total s1 entry entry.payload.segment_size
          entry.payload.segment_count m hub1 hroom1
      exact ⟨by omega, by omega⟩
    · rw [if_neg hg, spscPushDrop_append _ _ _ hroom1]
      set s2 : PairState := { s1 with filled_q := s1.filled_q ++ [entry] } with hs2
      have ht2 : s2.total = s1.total + 1 := by rw [hs2]; exact total_filled_append s1 entry
      have hc2 : s2.cap = s1.cap := by rw [hs2]
      cases hp2 : s2.unfilledPop with
      | none =>
        dsimp only
        exact ⟨by omega, by omega⟩
      | some pr2 =>
        obtain ⟨e2, s3⟩ := pr2
        dsimp only
        obtain ⟨ht3, hc3, hf3, hfb3, hub3⟩ := unfilledPop_spec s2 s3 e2 hp2
        have hroom3 : s3.filled_q.length < s3.cap := by
          have hle := filled_le_total s3
          omega
        obtain ⟨hT, hC⟩ := pushSelected_total s3 e2 0 0 m hub3 hroom3
        exact ⟨by omega, by omega⟩

theorem flush_total (s : PairState) (hcap : s.total ≤ s.cap) :
    s.unfilledFlush.total = s.total ∧ s.unfilledFlush.cap = s.cap := by
  unfold PairState.unfilledFlush
  cases hub : s.unfilled_buffer with
  | none => exact ⟨rfl, rfl⟩
  | some e =>
    dsimp only
    by_cases hcnt : e.payload.segment_count > 0
    · rw [if_pos hcnt]
      have hroom : s.filled_q.length < s.cap := by
        have hfq : s.filled_q.length + 1 ≤ s.total := by
          cases hfb : s.filled_buffer <;>
            simp [PairState.total, optLen, hub, hfb] <;> omega
        omega
      rw [spscPushDrop_append _ _ _ hroom]
      constructor
      · cases hfb : s.filled_buffer <;>
          simp [PairState.total, optLen, hub, hfb] <;> omega
      · rfl
    · rw [if_neg hcnt]
      exact ⟨rfl, rfl⟩

theorem finish_total (s : PairState) (e : Entry)
    (hroom : s.unfilled_q.length < s.cap) :
    (s.finish e).total = s.total + 1 ∧ (s.finish e).cap = s.cap := by
  unfold PairState.finish
  rw [spscPushDrop_append _ _ _ hroom]
  exact ⟨total_unfilled_append s e, rfl⟩

theorem txApply_total (trace : List SendRes) :
    ∀ count s, s.total ≤ s.cap →
      (txApply trace count s).2.total = s.total
      ∧ (txApply trace count s).2.cap = s.cap := by
  induction trace with
  | nil =>
    intro count s hcap
    unfold txApply
    cases hp : s.filledPop with
    | none => exact ⟨rfl, rfl⟩
    | some pr =>
      obtain ⟨entry, s1⟩ := pr
      dsimp only
      obtain ⟨ht1, hc1, hq1, hub1, hfb1⟩ := filledPop_spec s s1 entry hp
      set s2 : PairState := { s1 with filled_buffer := some entry } with hs2
      have ht2 : s2.total = s1.total + 1 := by
        rw [hs2]; exact total_set_filled_buffer s1 entry hfb1
      have hc2 : s2.cap = s1.cap := by rw [hs2]
      exact ⟨by omega, by omega⟩
  | cons r rest ih =>
    intro count s hcap
    unfold txApply
    cases hp : s.filledPop with
    | none => exact ⟨rfl, rfl⟩
    | some pr =>
      obtain ⟨entry, s1⟩ := pr
      dsimp only
      obtain ⟨ht1, hc1, hq1, hub1, hfb1⟩ := filledPop_spec s s1 entry hp
      cases r with
      | ok len =>
        dsimp only
        have hroom : s1.unfilled_q.length < s1.cap := by
          have hle := unfilled_le_total s1
          omega
        rw [spscPushDrop_append _ _ _ hroom]
        set s2 : PairState :=
          { s1 with unfilled_q := s1.unfilled_q
              ++ [{ entry with payload := entry.payload.reset }] } with hs2
        have ht2 : s2.total = s1.total + 1 := by rw [hs2]; exact total_unfilled_append s1 _
        have hc2 : s2.cap = s1.cap := by rw [hs2]
        obtain ⟨hT, hC⟩ := ih count s2 (by omega)
        exact ⟨by omega, by omega⟩
      | err e =>
        cases e with
        | interrupted =>
          dsimp only
          set s2 : PairState := { s1 with filled_buffer := some entry } with hs2
          have ht2 : s2.total = s1.total + 1 := by
            rw [hs2]; exact total_set_filled_buffer s1 entry hfb1
          have hc2 : s2.cap = s1.cap := by rw [hs2]
          by_cases hcnt : count = 0
          · rw [if_pos hcnt]
            obtain ⟨hT, hC⟩ := ih (count + 1) s2 (by omega)
            exact ⟨by omega, by omega⟩
          · rw [if_neg hcnt]
            dsimp only
            exact ⟨by omega, by omega⟩
        | wouldBlock =>
          dsimp only
          set s2 : PairState := { s1 with filled_buffer := some entry } with hs2
          have ht2 : s2.total = s1.total + 1 := by
            rw [hs2]; exact total_set_filled_buffer s1 entry hfb1
          have hc2 : s2.cap = s1.cap := by rw [hs2]
          exact ⟨by omega, by omega⟩
        | other =>
          dsimp only
          have hroom : s1.unfilled_q.length < s1.cap := by
            have hle := unfilled_le_total s1
            omega
          rw [spscPushDrop_append _ _ _ hroom]
          set s2 : PairState :=
            { s1 with unfilled_q := s1.unfilled_q
                ++ [{ entry with payload := entry.payload.reset }] } with hs2
          have ht2 : s2.total = s1.total + 1 := by rw [hs2]; exact total_unfilled_append s1 _
          have hc2 : s2.cap = s1.cap := by rw [hs2]
          obtain ⟨hT, hC⟩ := ih (count + 1) s2 (by omega)
          exact ⟨by omega, by omega⟩

theorem rxApply_total (trace : List RecvRes) :
    ∀ count s, s.total ≤ s.cap →
      (rxApply trace count s).2.total = s.total
      ∧ (rxApply trace count s).2.cap = s.cap := by
  induction trace with
  | nil =>
    intro count s hcap
    unfold rxApply
    cases hp : s.unfilledPop with
    | none => exact ⟨rfl, rfl⟩
    | some pr =>
      obtain ⟨entry, s1⟩ := pr
      dsimp only
      obtain ⟨ht1, hc1, hf1, hfb1, hub1⟩ := unfilledPop_spec s s1 entry hp
      set s2 : PairState := { s1 with unfilled_buffer := some entry } with hs2
      have ht2 : s2.total = s1.total + 1 := by
        rw [hs2]; exact total_set_unfilled_buffer s1 entry hub1
      have hc2 : s2.cap = s1.cap := by rw [hs2]
      exact ⟨by omega, by omega⟩
  | cons r rest ih =>
    intro count s hcap
    unfold rxApply
    cases hp : s.unfilledPop with
    | none => exact ⟨rfl, rfl⟩
    | some pr =>
      obtain ⟨entry, s1⟩ := pr
      dsimp only
      obtain ⟨ht1, hc1, hf1, hfb1, hub1⟩ := unfilledPop_spec s s1 entry hp
      cases r with
      | ok rc =>
        cases hr : rc.remote with
        | none =>
          dsimp only
          rw [hr]
          dsimp only
          set s2 : PairState := { s1 with unfilled_buffer := some entry } with hs2
          have ht2 : s2.total = s1.total + 1 := by
            rw [hs2]; exact total_set_unfilled_buffer s1 entry hub1
          have hc2 : s2.cap = s1.cap := by rw [hs2]
          obtain ⟨hT, hC⟩ := ih count s2 (by omega)
          exact ⟨by omega, by omega⟩
        | some a =>
          dsimp only
          rw [hr]
          dsimp only
          have hroom : s1.filled_q.length < s1.cap := by
            have hle := filled_le_total s1
            omega
          rw [spscPushDrop_append _ _ _ hroom]
          set s2 : PairState :=
            { s1 with filled_q := s1.filled_q ++ [rxProcess entry rc a] } with hs2
          have ht2 : s2.total = s1.total + 1 := by
            rw [hs2]; exact total_filled_append s1 _
          have hc2 : s2.cap = s1.cap := by rw [hs2]
          obtain ⟨hT, hC⟩ := ih (count + 1) s2 (by omega)
          exact ⟨by omega, by omega⟩
      | err e =>
        cases e with
        | interrupted =>
          dsimp only
          set s2 : PairState := { s1 with unfilled_buffer := some entry } with hs2
          have ht2 : s2.total = s1.total + 1 := by
            rw [hs2]; exact total_set_unfilled_buffer s1 entry hub1
          have hc2 : s2.cap = s1.cap := by rw [hs2]
          by_cases hcnt : count = 0
          · rw [if_pos hcnt]
            obtain ⟨hT, hC⟩ := ih (count + 1) s2 (by omega)
            exact ⟨by omega, by omega⟩
          · rw [if_neg hcnt]
            dsimp only
            exact ⟨by omega, by omega⟩
        | wouldBlock =>
          dsimp only
          set s2 : PairState := { s1 with unfilled_buffer := some entry } with hs2
          have ht2 : s2.total = s1.total + 1 := by
            rw [hs2]; exact total_set_unfilled_buffer s1 entry hub1
          have hc2 : s2.cap = s1.cap := by rw [hs2]
          exact ⟨by omega, by omega⟩
        | other =>
          dsimp only
          set s2 : PairState := { s1 with unfilled_buffer := some entry } with hs2
          have ht2 : s2.total = s1.total + 1 := by
            rw [hs2]; exact total_set_unfilled_buffer s1 entry hub1
          have hc2 : s2.cap = s1.cap := by rw [hs2]
          obtain ⟨hT, hC⟩ := ih (count + 1) s2 (by omega)
          exact ⟨by omega, by omega⟩

/-- Claim C2: a ring pair created by `pair_inner(max_payload, count, queue)`
contains exactly `count` entries, all in the unfilled queue, and both queue
capacities equal `count`; and every operation of the pair — TX push, TX
slice flush, filled-side pop, `finish`, and the socket-driver apply loops —
preserves the conservation invariant: the entries in the two queues, the two
one-slot buffers, and the entries checked out to the consumer always sum to
the capacity.  In particular no internal queue push ever hits a full queue,
so no entry is dropped, and no entry is duplicated. -/
theorem slot_conservation :
    (∀ max_payload count queue,
      (pair_inner max_payload count queue).total = count
      ∧ (pair_inner max_payload count queue).cap = count
      ∧ (pair_inner max_payload count queue).unfilled_q.length = count)
    ∧ (∀ s hl s' hl', Step s hl s' hl' →
        s.total + hl.length = s.cap →
        s'.total + hl'.length = s'.cap ∧ s'.cap = s.cap) := by
  constructor
  · intro max_payload count queue
    refine ⟨?_, rfl, ?_⟩ <;>
      simp [pair_inner, PairState.total, optLen]
  · intro s hl s' hl' hstep hinv
    cases hstep with
    | push h m =>
      obtain ⟨hT, hC⟩ := push_total s m (by omega)
      exact ⟨by omega, by omega⟩
    | flush h =>
      obtain ⟨hT, hC⟩ := flush_total s (by omega)
      exact ⟨by omega, by omega⟩
    | filledPop s2 h e hpop =>
      obtain ⟨hT, hC, _, _, _⟩ := filledPop_spec s s' e hpop
      constructor
      · simp only [List.length_cons]
        omega
      · omega
    | finish h e =>
      have hroom : s.unfilled_q.length < s.cap := by
        have hle := unfilled_le_total s
        simp only [List.length_cons] at hinv
        omega
      obtain ⟨hT, hC⟩ := finish_total s e hroom
      constructor
      · simp only [List.length_cons] at hinv
        omega
      · omega
    | txApply h trace =>
      obtain ⟨hT, hC⟩ := txApply_total trace 0 s (by omega)
      exact ⟨by omega, by omega⟩
    | rxApply h trace =>
      obtain ⟨hT, hC⟩ := rxApply_total trace 0 s (by omega)
      exact ⟨by omega, by omega⟩

theorem slot_conservation_witness :
    (pair_inner 4 2 0).total + ([] : List Entry).length = (pair_inner 4 2 0).cap
    ∧ (pair_inner 4 2 0).unfilledFlush.total + ([] : List Entry).length
        = (pair_inner 4 2 0).unfilledFlush.cap :=
  ⟨by decide,
    (slot_conservation.2 (pair_inner 4 2 0) [] (pair_inner 4 2 0).unfilledFlush []
      (Step.flush (pair_inner 4 2 0) []) (by decide)).1⟩
